import Mathlib

/-!
Verification of the ClineShield edit-safety pipeline: shallow embedding of
the risk-scoring rules engine (`rulesEngine.ts`), the structural-change
analyzer (`clineshield-analyze.js`), the append-only metrics event log
(`metrics/writer.ts`, `metrics/reader.ts`), and the rate-limited,
deduplicated enrichment dispatcher (`extension.ts`,
`riskAnalysis/llmTrigger.ts`, `riskAnalysis/llmAnalyzer.ts`).
-/

namespace ClineShield

/-! Rules engine (`src/extension/riskAnalysis/rulesEngine.ts`) -/

structure RiskInput where
  filePath : String
  structuralChangePercent : Int
  deletedFunctions : Int
  sanityPassed : Bool
  diffLineCount : Int

structure RiskReason where
  rule : String
  points : Int
  description : String
deriving DecidableEq

inductive RiskLevel where
  | low
  | medium
  | high
deriving DecidableEq

structure RiskResult where
  score : Int
  level : RiskLevel
  reasons : List RiskReason
deriving DecidableEq

def PROTECTED_PATH_PREFIXES : List String :=
  ["src/config/", "src/auth/", "src/middleware/", "auth/", "config/"]

def PROTECTED_FILE_EXACT : List String :=
  [".env", ".env.local", ".env.production", ".env.development"]

/-- JS `filePath.replace(/\\/g, '/')`: every backslash becomes a forward slash. -/
def normalizeSlashes (s : String) : List Char :=
  s.toList.map (fun c => if c = '\\' then '/' else c)

/-- JS `normalized.split('/').pop() ?? normalized`: the component after the last
slash (the whole string when there is no slash; `split` never yields an
empty array, so the `?? normalized` fallback is dead code). -/
def basenameOf (cs : List Char) : List Char :=
  (cs.reverse.takeWhile (fun c => c ≠ '/')).reverse

def isProtectedPath (filePath : String) : Bool :=
  let normalized := normalizeSlashes filePath
  let basename := basenameOf normalized
  if PROTECTED_FILE_EXACT.any (fun f => basename == f.toList) then
    true
  else
    PROTECTED_PATH_PREFIXES.any (fun p => p.toList.isPrefixOf normalized)

/-- The anchored regex `/\.(test|spec)\.(ts|tsx|js|jsx)$/` matches exactly
when the path ends in one of these eight suffixes. -/
def TEST_FILE_SUFFIXES : List String :=
  [".test.ts", ".test.tsx", ".test.js", ".test.jsx",
   ".spec.ts", ".spec.tsx", ".spec.js", ".spec.jsx"]

def isTestFile (filePath : String) : Bool :=
  TEST_FILE_SUFFIXES.any (fun suf => suf.toList.isSuffixOf filePath.toList)

def levelFromScore (score : Int) : RiskLevel :=
  if score ≤ 30 then .low
  else if score ≤ 60 then .medium
  else .high

/-- The running `(score, reasons)` accumulator of `computeRiskScore`
(`let score = 0` / `const reasons = []` mutated by each rule block). -/
abbrev ScoreAcc := Int × List RiskReason

-- Rule 1: File is in a protected path (+30)
def ruleProtectedPath (input : RiskInput) (acc : ScoreAcc) : ScoreAcc :=
  if isProtectedPath input.filePath then
    (acc.1 + 30, acc.2 ++ [⟨"protected_path", 30,
      "File is in a protected path (" ++ input.filePath ++ ")"⟩])
  else acc

-- Rule 2/3: Structural change — tiered, not additive
def ruleStructuralChange (input : RiskInput) (acc : ScoreAcc) : ScoreAcc :=
  if input.structuralChangePercent > 75 then
    (acc.1 + 40, acc.2 ++ [⟨"structural_change_high", 40,
      "Structural change is " ++ toString input.structuralChangePercent ++
      "% (exceeds 75%)"⟩])
  else if input.structuralChangePercent > 50 then
    (acc.1 + 25, acc.2 ++ [⟨"structural_change_medium", 25,
      "Structural change is " ++ toString input.structuralChangePercent ++
      "% (exceeds 50%)"⟩])
  else acc

-- Rule 4/5: Deleted functions — tiered, not additive
def ruleDeletedFunctions (input : RiskInput) (acc : ScoreAcc) : ScoreAcc :=
  if input.deletedFunctions > 3 then
    (acc.1 + 35, acc.2 ++ [⟨"deleted_functions_high", 35,
      toString input.deletedFunctions ++ " functions deleted (exceeds 3)"⟩])
  else if input.deletedFunctions > 0 then
    (acc.1 + 20, acc.2 ++ [⟨"deleted_functions_low", 20,
      toString input.deletedFunctions ++ " function(s) deleted"⟩])
  else acc

-- Rule 6: Sanity check failed (+20)
def ruleSanityFailed (input : RiskInput) (acc : ScoreAcc) : ScoreAcc :=
  if !input.sanityPassed then
    (acc.1 + 20, acc.2 ++ [⟨"sanity_failed", 20,
      "Quality checks (eslint/tsc/prettier) failed after this edit"⟩])
  else acc

-- Rule 7: Large diff (+15)
def ruleLargeDiff (input : RiskInput) (acc : ScoreAcc) : ScoreAcc :=
  if input.diffLineCount > 200 then
    (acc.1 + 15, acc.2 ++ [⟨"large_diff", 15,
      "Diff is " ++ toString input.diffLineCount ++ " lines (exceeds 200)"⟩])
  else acc

-- Rule 8: Test file deduction (-10)
def ruleTestFile (input : RiskInput) (acc : ScoreAcc) : ScoreAcc :=
  if isTestFile input.filePath then
    (acc.1 - 10, acc.2 ++ [⟨"test_file", -10,
      "Test file — lower inherent risk"⟩])
  else acc

/-- Embedding of `computeRiskScore` from `rulesEngine.ts`: the eight rule blocks applied
in source order to the `(score, reasons)` accumulator, then
`Math.min(100, Math.max(0, score))` and `levelFromScore`. -/
def computeRiskScore (input : RiskInput) : RiskResult :=
  let acc := ruleTestFile input (ruleLargeDiff input (ruleSanityFailed input
    (ruleDeletedFunctions input (ruleStructuralChange input
      (ruleProtectedPath input (0, []))))))
  let finalScore := min 100 (max 0 acc.1)
  ⟨finalScore, levelFromScore finalScore, acc.2⟩

/-- The raw (pre-clamp) rule sum: each rule's contribution added under the
same tiers and conditions as `computeRiskScore` accumulates them. -/
def rawScore (input : RiskInput) : Int :=
  (if isProtectedPath input.filePath then 30 else 0)
  + (if input.structuralChangePercent > 75 then 40
     else if input.structuralChangePercent > 50 then 25 else 0)
  + (if input.deletedFunctions > 3 then 35
     else if input.deletedFunctions > 0 then 20 else 0)
  + (if !input.sanityPassed then 20 else 0)
  + (if input.diffLineCount > 200 then 15 else 0)
  + (if isTestFile input.filePath then -10 else 0)

/-- The reason entries each rule block pushes, concatenated in source order. -/
def riskReasons (input : RiskInput) : List RiskReason :=
  (if isProtectedPath input.filePath then
    [⟨"protected_path", 30,
      "File is in a protected path (" ++ input.filePath ++ ")"⟩] else [])
  ++ (if input.structuralChangePercent > 75 then
      [⟨"structural_change_high", 40,
        "Structural change is " ++ toString input.structuralChangePercent ++
        "% (exceeds 75%)"⟩]
     else if input.structuralChangePercent > 50 then
      [⟨"structural_change_medium", 25,
        "Structural change is " ++ toString input.structuralChangePercent ++
        "% (exceeds 50%)"⟩]
     else [])
  ++ (if input.deletedFunctions > 3 then
      [⟨"deleted_functions_high", 35,
        toString input.deletedFunctions ++ " functions deleted (exceeds 3)"⟩]
     else if input.deletedFunctions > 0 then
      [⟨"deleted_functions_low", 20,
        toString input.deletedFunctions ++ " function(s) deleted"⟩]
     else [])
  ++ (if !input.sanityPassed then
      [⟨"sanity_failed", 20,
        "Quality checks (eslint/tsc/prettier) failed after this edit"⟩] else [])
  ++ (if input.diffLineCount > 200 then
      [⟨"large_diff", 15,
        "Diff is " ++ toString input.diffLineCount ++ " lines (exceeds 200)"⟩]
     else [])
  ++ (if isTestFile input.filePath then
      [⟨"test_file", -10, "Test file — lower inherent risk"⟩] else [])

/-- The fixed rule-evaluation order of `computeRiskScore`. -/
def ruleOrder : List String :=
  ["protected_path", "structural_change_high", "structural_change_medium",
   "deleted_functions_high", "deleted_functions_low", "sanity_failed",
   "large_diff", "test_file"]

/-! Structural change analyzer (`src/hooks/clineshield-analyze.js`)

The name-extraction step runs a TypeScript parser (ts-morph) over the two
snapshots; it is embedded abstractly: a snapshot is the pair of extracted
sets — the function-like symbol names and the exported names — and the
file system maps a path to its snapshot, `none` when `fs.existsSync` is
false.  The arithmetic of `analyzeStructuralChange` (lines 112–159) is
embedded exactly. -/

/-- Extracted content of one readable snapshot: the set of function-like
symbol names and the set of exported names. -/
structure Snapshot where
  functions : Finset String
  exports : Finset String
deriving DecidableEq

structure AnalyzeResult where
  error : Option String
  structuralChangePercent : Nat
  deletedFunctions : Nat
  deletedExports : Nat
deriving DecidableEq

/-- JS `Math.round(num / den)` for nonnegative operands:
`floor(num/den + 1/2) = (2*num + den) / (2*den)` in integer division. -/
def jsRound (num den : Nat) : Nat := (2 * num + den) / (2 * den)

/-- Lines 112–159 of `analyzeStructuralChange`: deleted / added counts over
the extracted name sets, the rounded percentage (0 when there are no
functions at all), and deleted exports. -/
def analyzeSets (before after : Snapshot) : AnalyzeResult :=
  let deletedFunctions := (before.functions \ after.functions).card
  let addedFunctions := (after.functions \ before.functions).card
  let totalFunctions := before.functions.card + after.functions.card
  let structuralChangePercent :=
    if totalFunctions > 0 then
      jsRound (100 * (addedFunctions + deletedFunctions)) totalFunctions
    else 0
  let deletedExports := (before.exports \ after.exports).card
  ⟨none, structuralChangePercent, deletedFunctions, deletedExports⟩

/-- Embedding of `analyzeStructuralChange(beforePath, afterPath)`: the two
`fs.existsSync` guards return the `File not found` result embedding the
missing path with all counts zero; otherwise the counts are computed from
the extracted sets.  The function is total: it never throws. -/
def analyzeStructuralChange (fsFiles : String → Option Snapshot)
    (beforePath afterPath : String) : AnalyzeResult :=
  match fsFiles beforePath with
  | none => ⟨some ("File not found: " ++ beforePath), 0, 0, 0⟩
  | some before =>
    match fsFiles afterPath with
    | none => ⟨some ("File not found: " ++ afterPath), 0, 0, 0⟩
    | some after => analyzeSets before after

/-! Metrics event log (`src/metrics/writer.ts`, `src/metrics/reader.ts`)

The backing resource (`.cline-shield/metrics.json`) is modelled by its
parsed content, with one constructor per failure branch of the code's
read step: `missing` (read throws — ENOENT or unreadable), `malformed`
(`JSON.parse` throws), `nonArray` (parses but `Array.isArray` is false),
and `wellFormed` (a JSON array of events).  Event payloads are opaque. -/

inductive LogContent (ε : Type) where
  | missing
  | malformed
  | nonArray
  | wellFormed (events : List ε)
deriving DecidableEq

/-- Writer's load step (lines 74–94 of `writer.ts`): the current event
array, reset to empty on any of the three failure branches. -/
def loadEvents {ε : Type} : LogContent ε → List ε
  | .wellFormed events => events
  | _ => []

/-- Lines 96–108 of `doAppend`: push the event, write the temp resource,
rename it over the canonical one.  `writeOk` / `renameOk` say whether the
two I/O steps succeed; a failed rename deletes the temp resource and
rethrows, a failed write throws — either error propagates to `doAppend`'s
outer catch, leaving the canonical resource unchanged. -/
def doAppendInner {ε : Type} (content : LogContent ε) (event : ε)
    (writeOk renameOk : Bool) : Except Unit (LogContent ε) :=
  let events := loadEvents content ++ [event]
  if writeOk then
    if renameOk then .ok (.wellFormed events)
    else .error ()
  else .error ()

/-- Embedding of `doAppend` with its outer try/catch: any thrown error is logged and
swallowed (the append is a no-op on the canonical resource), so the
function is total — it never throws. -/
def doAppend {ε : Type} (content : LogContent ε) (event : ε)
    (writeOk renameOk : Bool) : LogContent ε :=
  match doAppendInner content event writeOk renameOk with
  | .ok content' => content'
  | .error _ => content

/-- N appends executed back to back — the effect of N `appendEvent` calls
each awaited, or issued concurrently: the per-path FIFO write queue
(`writeQueues` in `writer.ts`) chains every call onto the previous one's
promise, so the `doAppend` bodies run serially in call order either way.
All I/O succeeds. -/
def appendAll {ε : Type} (content : LogContent ε) (events : List ε) :
    LogContent ε :=
  events.foldl (fun c e => doAppend c e true true) content

/-- Embedding of `readEvents` from `reader.ts`: the parsed array, or `[]` when the read
throws, the parse throws, or the content is not an array. -/
def readEvents {ε : Type} : LogContent ε → List ε
  | .wellFormed events => events
  | _ => []

/-! Enrichment dispatcher (`src/extension.ts`) -/

/-- The fields of a `risk-assessed` metrics event the watcher loop reads:
`timestamp`, `sessionId`, the `type` discriminator and `data.level`
(`file` is kept to distinguish events that share a timestamp). -/
structure WatchedEvent where
  timestamp : String
  sessionId : String
  type : String
  level : RiskLevel
  file : String
deriving DecidableEq

/-- The filter of the dispatch loop in `handleMetricsChange`:
`event.type === 'risk-assessed' && event.data.level !== 'low'`. -/
def qualifiesForLlm (e : WatchedEvent) : Bool :=
  e.type == "risk-assessed" && e.level != RiskLevel.low

/-- Embedding of `readEventsBySession` from `reader.ts`: order-preserving session
filter over `readEvents`. -/
def readEventsBySession {ε : Type} (sessionId : ε → String) (sid : String)
    (content : LogContent ε) : List ε :=
  (readEvents content).filter (fun e => sessionId e == sid)

/-- Process-local dispatcher state: the `processedRiskTimestamps` dedup set
and the FIFO `geminiQueue` of enqueued enrichment jobs. -/
structure DispatcherState where
  processed : List String
  queue : List WatchedEvent

/-- One iteration of the `for (const event of events)` loop in
`handleMetricsChange`: a qualifying event whose timestamp is not in the
dedup set is marked processed and its enrichment job enqueued. -/
def dispatchStep (s : DispatcherState) (e : WatchedEvent) : DispatcherState :=
  if qualifiesForLlm e = true ∧ e.timestamp ∉ s.processed then
    ⟨e.timestamp :: s.processed, s.queue ++ [e]⟩
  else s

/-- One `handleMetricsChange` invocation: read the current session's
events from the log and run the dispatch loop over them. -/
def handleMetricsChange (sid : String) (s : DispatcherState)
    (log : LogContent WatchedEvent) : DispatcherState :=
  (readEventsBySession WatchedEvent.sessionId sid log).foldl dispatchStep s

/-- A process lifetime of level-triggered watcher scans: the dedup set and
queue start empty and every watcher firing observes the log state of that
moment. -/
def runScans (sid : String) (logs : List (LogContent WatchedEvent)) :
    DispatcherState :=
  logs.foldl (handleMetricsChange sid) ⟨[], []⟩

/-- Gemini free tier pacing floor: 1 call per 6 s (`extension.ts` line 18). -/
def GEMINI_MIN_INTERVAL_MS : Nat := 6000

/-- Embedding of `drainGeminiQueue`: shift the next job, sleep until
`GEMINI_MIN_INTERVAL_MS` has elapsed since the previous call, record the
call time, fire.  `last` is `geminiLastCallMs`, `now` the clock when the
loop iteration starts; `delays` injects the arbitrary nonnegative time the
fired job and scheduling consume before the next iteration reads the
clock.  Returns each job paired with its firing time. -/
def drainTimes {α : Type} : Nat → Nat → List α → List Nat → List (α × Nat)
  | _, _, [], _ => []
  | last, now, job :: jobs, delays =>
    let fire := max now (last + GEMINI_MIN_INTERVAL_MS)
    (job, fire) :: drainTimes fire (fire + delays.headD 0) jobs delays.tail

/-! Enrichment call (`riskAnalysis/llmAnalyzer.ts`,
`riskAnalysis/llmTrigger.ts`)

The HTTP exchange is embedded by its observable shape: what `callGemini`
does with the key guard, the fetch outcome, the extracted candidate text
and the parse of that text. -/

structure GeminiAnalysis where
  explanation : String
deriving DecidableEq

/-- Shape of `JSON.parse(text)` on the candidate text: the parse throws
(caught by `callGemini`'s outer catch), or yields a value whose
`explanation` is absent, not a string, or a string. -/
inductive GeminiPayload where
  | notJson
  | noExplanationField
  | explanationNonString
  | explanationString (s : String)

/-- Outcome of the fetch in `callGemini`: the request throws, returns
non-ok, returns ok with no usable candidate text
(`candidates?.[0]?.content?.parts?.[0]?.text` undefined or empty — both
fail the `if (!text)` guard), or returns ok with candidate text whose
parse has the given shape. -/
inductive GeminiHttp where
  | fetchError
  | notOk
  | okNoText
  | okText (payload : GeminiPayload)

/-- JS `!s.trim()`: true exactly when the string trims to empty, i.e. is
made of whitespace only. -/
def trimsToEmpty (s : String) : Bool :=
  s.toList.all Char.isWhitespace

/-- Embedding of `callGemini`'s result logic: `null` without a key; `null` on fetch
error, non-ok status, missing text, unparsable text, missing or non-string
`explanation`, or an `explanation` that is empty after `trim()`
(`!parsed.explanation.trim()`); otherwise the untrimmed explanation. -/
def callGemini (hasKey : Bool) (resp : GeminiHttp) : Option GeminiAnalysis :=
  if !hasKey then none
  else
    match resp with
    | .fetchError => none
    | .notOk => none
    | .okNoText => none
    | .okText payload =>
      match payload with
      | .explanationString s => if trimsToEmpty s then none else some ⟨s⟩
      | _ => none

/-- The `llm-analysis` event `processRiskEvent` appends on success. -/
structure LlmAnalysisEvent where
  file : String
  relatedRiskEventTimestamp : String
  reasoning : String
deriving DecidableEq

/-- Tail of `processRiskEvent` (`llmTrigger.ts`): a `null` Gemini result
returns without appending; a successful one appends exactly one
`llm-analysis` event carrying the explanation and the originating event's
timestamp.  Context-gathering failures never reach this point as errors —
they only yield empty diff/file strings fed to the call. -/
def processRiskEvent (riskTimestamp file : String)
    (result : Option GeminiAnalysis) : List LlmAnalysisEvent :=
  match result with
  | none => []
  | some r => [⟨file, riskTimestamp, r.explanation⟩]

/-- The scenario input of the spec: a protected-path file, 100% structural
change, 10 deleted functions, failed sanity check, 500-line diff. -/
def highRiskInput : RiskInput := ⟨"src/auth/index.ts", 100, 10, false, 500⟩

/-- An input where only the `test_file` deduction fires. -/
def testOnlyInput : RiskInput := ⟨"src/utils/helper.test.ts", 0, 0, true, 0⟩

/-- An input firing no rules at all. -/
def neutralInput : RiskInput := ⟨"src/utils/helper.ts", 0, 0, true, 0⟩

/-- Invariant of the dispatcher loop: enqueued jobs have pairwise distinct
timestamps, and every enqueued job's timestamp is in the dedup set. -/
def DispatchInv (s : DispatcherState) : Prop :=
  (s.queue.map WatchedEvent.timestamp).Nodup
  ∧ ∀ e ∈ s.queue, e.timestamp ∈ s.processed

/-- A before-snapshot of ten function names (spec scenario). -/
def demoBeforeSnap : Snapshot :=
  ⟨{"f0", "f1", "f2", "f3", "f4", "f5", "f6", "f7", "f8", "f9"}, ∅⟩

/-- The same file reduced to five of those functions, none added. -/
def demoAfterSnap : Snapshot :=
  ⟨{"f0", "f1", "f2", "f3", "f4"}, ∅⟩

/-- A file system holding exactly the two demo snapshots. -/
def demoFs : String → Option Snapshot := fun p =>
  if p = "before.ts" then some demoBeforeSnap
  else if p = "after.ts" then some demoAfterSnap
  else none

/-- A medium/high `risk-assessed` event of the current session. -/
def sameTsEventA : WatchedEvent :=
  ⟨"2024-01-01T00:00:00Z", "s1", "risk-assessed", .high, "a.ts"⟩

/-- A distinct qualifying event carrying a byte-identical timestamp. -/
def sameTsEventB : WatchedEvent :=
  ⟨"2024-01-01T00:00:00Z", "s1", "risk-assessed", .high, "b.ts"⟩

lemma ruleProtectedPath_spec (input : RiskInput) (acc : ScoreAcc) :
    ruleProtectedPath input acc =
      (acc.1 + (if isProtectedPath input.filePath then 30 else 0),
       acc.2 ++ (if isProtectedPath input.filePath then
        [⟨"protected_path", 30,
          "File is in a protected path (" ++ input.filePath ++ ")"⟩] else [])) := by
  unfold ruleProtectedPath
  split_ifs <;> simp

lemma ruleStructuralChange_spec (input : RiskInput) (acc : ScoreAcc) :
    ruleStructuralChange input acc =
      (acc.1 + (if input.structuralChangePercent > 75 then 40
         else if input.structuralChangePercent > 50 then 25 else 0),
       acc.2 ++ (if input.structuralChangePercent > 75 then
        [⟨"structural_change_high", 40,
          "Structural change is " ++ toString input.structuralChangePercent ++
          "% (exceeds 75%)"⟩]
       else if input.structuralChangePercent > 50 then
        [⟨"structural_change_medium", 25,
          "Structural change is " ++ toString input.structuralChangePercent ++
          "% (exceeds 50%)"⟩]
       else [])) := by
  unfold ruleStructuralChange
  split_ifs <;> simp

lemma ruleDeletedFunctions_spec (input : RiskInput) (acc : ScoreAcc) :
    ruleDeletedFunctions input acc =
      (acc.1 + (if input.deletedFunctions > 3 then 35
         else if input.deletedFunctions > 0 then 20 else 0),
       acc.2 ++ (if input.deletedFunctions > 3 then
        [⟨"deleted_functions_high", 35,
          toString input.deletedFunctions ++ " functions deleted (exceeds 3)"⟩]
       else if input.deletedFunctions > 0 then
        [⟨"deleted_functions_low", 20,
          toString input.deletedFunctions ++ " function(s) deleted"⟩]
       else [])) := by
  unfold ruleDeletedFunctions
  split_ifs <;> simp

lemma ruleSanityFailed_spec (input : RiskInput) (acc : ScoreAcc) :
    ruleSanityFailed input acc =
      (acc.1 + (if !input.sanityPassed then 20 else 0),
       acc.2 ++ (if !input.sanityPassed then
        [⟨"sanity_failed", 20,
          "Quality checks (eslint/tsc/prettier) failed after this edit"⟩]
       else [])) := by
  unfold ruleSanityFailed
  split_ifs <;> simp

lemma ruleLargeDiff_spec (input : RiskInput) (acc : ScoreAcc) :
    ruleLargeDiff input acc =
      (acc.1 + (if input.diffLineCount > 200 then 15 else 0),
       acc.2 ++ (if input.diffLineCount > 200 then
        [⟨"large_diff", 15,
          "Diff is " ++ toString input.diffLineCount ++ " lines (exceeds 200)"⟩]
       else [])) := by
  unfold ruleLargeDiff
  split_ifs <;> simp

lemma ruleTestFile_spec (input : RiskInput) (acc : ScoreAcc) :
    ruleTestFile input acc =
      (acc.1 + (if isTestFile input.filePath then -10 else 0),
       acc.2 ++ (if isTestFile input.filePath then
        [⟨"test_file", -10, "Test file — lower inherent risk"⟩] else [])) := by
  unfold ruleTestFile
  split_ifs <;> simp [Int.sub_eq_add_neg]

/-- Closed form of `computeRiskScore`: clamped raw sum, its level, and the
reason list in rule order. -/
lemma computeRiskScore_eq (input : RiskInput) :
    computeRiskScore input =
      ⟨min 100 (max 0 (rawScore input)),
       levelFromScore (min 100 (max 0 (rawScore input))),
       riskReasons input⟩ := by
  unfold computeRiskScore rawScore riskReasons
  rw [ruleProtectedPath_spec, ruleStructuralChange_spec,
    ruleDeletedFunctions_spec, ruleSanityFailed_spec, ruleLargeDiff_spec,
    ruleTestFile_spec]
  simp [add_assoc, List.append_assoc]

lemma appendAll_wellFormed {ε : Type} (events : List ε) :
    ∀ l : List ε,
      readEvents (appendAll (LogContent.wellFormed l) events) = l ++ events := by
  induction events with
  | nil => intro l; simp [appendAll, readEvents]
  | cons e es ih =>
    intro l
    show readEvents (appendAll (doAppend (LogContent.wellFormed l) e true true) es) = _
    have h : doAppend (LogContent.wellFormed l) e true true
        = LogContent.wellFormed (l ++ [e]) := rfl
    rw [h, ih]
    simp

lemma dispatchStep_inv (s : DispatcherState) (e : WatchedEvent)
    (h : DispatchInv s) : DispatchInv (dispatchStep s e) := by
  unfold dispatchStep
  split_ifs with hc
  · obtain ⟨hnd, hmem⟩ := h
    constructor
    · simp only [List.map_append, List.map_cons, List.map_nil]
      rw [List.nodup_append]
      refine ⟨hnd, List.nodup_singleton _, ?_⟩
      intro t ht
      simp only [List.mem_map] at ht
      obtain ⟨x, hx, rfl⟩ := ht
      simp only [List.mem_singleton]
      intro hEq
      exact hc.2 (hEq ▸ hmem x hx)
    · intro x hx
      simp only [List.mem_append, List.mem_singleton] at hx
      rcases hx with hx | rfl
      · exact List.mem_cons_of_mem _ (hmem x hx)
      · exact List.mem_cons_self _ _
  · exact h

lemma foldl_dispatchStep_inv (events : List WatchedEvent) :
    ∀ s, DispatchInv s → DispatchInv (events.foldl dispatchStep s) := by
  induction events with
  | nil => intro s h; exact h
  | cons e es ih => intro s h; exact ih _ (dispatchStep_inv s e h)

lemma runScans_inv (sid : String) (logs : List (LogContent WatchedEvent)) :
    DispatchInv (runScans sid logs) := by
  unfold runScans
  have main : ∀ (ls : List (LogContent WatchedEvent)) (s : DispatcherState),
      DispatchInv s → DispatchInv (ls.foldl (handleMetricsChange sid) s) := by
    intro ls
    induction ls with
    | nil => intro s h; exact h
    | cons l ls ih =>
      intro s h
      exact ih _ (foldl_dispatchStep_inv _ s h)
  exact main logs ⟨[], []⟩ ⟨List.nodup_nil, by intro e h; simp at h⟩

lemma drainTimes_chain' {α : Type} (jobs : List α) :
    ∀ last now delays,
      List.Chain' (fun a b => a.2 + GEMINI_MIN_INTERVAL_MS ≤ b.2)
        (drainTimes last now jobs delays) := by
  induction jobs with
  | nil => intro last now delays; exact List.chain'_nil
  | cons j js ih =>
    intro last now delays
    rw [drainTimes, List.chain'_cons']
    refine ⟨?_, ih _ _ _⟩
    intro b hb
    cases js with
    | nil => simp [drainTimes] at hb
    | cons j' js' =>
      simp only [drainTimes, List.head?_cons, Option.mem_def,
        Option.some.injEq] at hb
      subst hb
      simp only []
      exact le_max_right _ _

/-! Claim theorems -/

/-- C1: for every `RiskInput`, `computeRiskScore` returns a score equal to
the raw rule sum clamped to `[0, 100]` and a level that is the pure step
function of that final score; the spec's scenario input has raw sum 140,
final score 100 and level high; a pure test-file input has raw sum −10,
clamped to 0. -/
theorem C1_score_clamped_level_step : ∀ input : RiskInput,
    (computeRiskScore input).score = min 100 (max 0 (rawScore input))
    ∧ (computeRiskScore input).level
        = levelFromScore (computeRiskScore input).score
    ∧ rawScore highRiskInput = 140
    ∧ (computeRiskScore highRiskInput).score = 100
    ∧ (computeRiskScore highRiskInput).level = RiskLevel.high
    ∧ rawScore testOnlyInput = -10
    ∧ (computeRiskScore testOnlyInput).score = 0 := by
  intro input
  refine ⟨?_, ?_, by decide, by decide, by decide, by decide, by decide⟩
  · rw [computeRiskScore_eq]
  · rw [computeRiskScore_eq]

set_option maxHeartbeats 3200000 in
/-- C2: the reasons list follows the fixed rule-evaluation order (a
sublist of `ruleOrder`), the two structural-tier reasons never co-occur,
the two deletion-tier reasons never co-occur, the reason points sum to the
pre-clamp raw score (hence equal the returned score whenever clamping does
not trigger), and an input that fires no rule yields score 0, level low,
empty reasons. -/
theorem C2_reasons_order_exclusive_sum : ∀ input : RiskInput,
    ((computeRiskScore input).reasons.map RiskReason.rule).Sublist ruleOrder
    ∧ ((computeRiskScore input).reasons.map RiskReason.rule).count
          "structural_change_high"
        + ((computeRiskScore input).reasons.map RiskReason.rule).count
          "structural_change_medium" ≤ 1
    ∧ ((computeRiskScore input).reasons.map RiskReason.rule).count
          "deleted_functions_high"
        + ((computeRiskScore input).reasons.map RiskReason.rule).count
          "deleted_functions_low" ≤ 1
    ∧ ((computeRiskScore input).reasons.map RiskReason.points).sum
        = rawScore input
    ∧ (0 ≤ rawScore input → rawScore input ≤ 100 →
        (computeRiskScore input).score = rawScore input)
    ∧ computeRiskScore neutralInput = ⟨0, RiskLevel.low, []⟩ := by
  intro input
  refine ⟨?_, ?_, ?_, ?_, ?_, by decide⟩
  · rw [computeRiskScore_eq]
    unfold riskReasons ruleOrder
    split_ifs <;> simp <;> decide
  · rw [computeRiskScore_eq]
    unfold riskReasons
    split_ifs <;> simp
  · rw [computeRiskScore_eq]
    unfold riskReasons
    split_ifs <;> simp
  · rw [computeRiskScore_eq]
    unfold riskReasons rawScore
    split_ifs <;> simp
  · intro h1 h2
    rw [computeRiskScore_eq]
    simp only []
    omega

theorem C2_reasons_sum_witness :
    0 ≤ rawScore highRiskInput - 140 + 50
    ∧ rawScore neutralInput ≤ 100
    ∧ (computeRiskScore neutralInput).score = rawScore neutralInput :=
  ⟨by decide, by decide,
    (C2_reasons_order_exclusive_sum neutralInput).2.2.2.2.1
      (by decide) (by decide)⟩

/-- C3: N appends — sequential, or concurrent through the per-path FIFO
write queue which serializes them — followed by a read reproduce exactly
those N events in order, starting from an absent or empty log resource. -/
theorem C3_append_read_roundtrip : ∀ (ε : Type) (events : List ε),
    readEvents (appendAll LogContent.missing events) = events
    ∧ readEvents (appendAll (LogContent.wellFormed []) events) = events := by
  intro ε events
  constructor
  · cases events with
    | nil => rfl
    | cons e es =>
      show readEvents (appendAll (doAppend LogContent.missing e true true) es) = _
      have h : doAppend (LogContent.missing (ε := ε)) e true true
          = LogContent.wellFormed [e] := rfl
      rw [h, appendAll_wellFormed]
      simp
  · rw [appendAll_wellFormed]
    simp

/-- C4: appending onto an unreadable resource, invalid JSON, or JSON that
is not an array resets the sequence before appending, so a subsequent read
returns exactly the one new event; and the append never throws — on write
or rename failure the error is swallowed and the canonical resource is
left unchanged. -/
theorem C4_corruption_reset_no_throw :
    ∀ (ε : Type) (e : ε) (c : LogContent ε) (writeOk renameOk : Bool),
    readEvents (doAppend LogContent.missing e true true) = [e]
    ∧ readEvents (doAppend LogContent.malformed e true true) = [e]
    ∧ readEvents (doAppend LogContent.nonArray e true true) = [e]
    ∧ doAppend c e writeOk renameOk
        = (if writeOk && renameOk then
            LogContent.wellFormed (loadEvents c ++ [e])
          else c) := by
  intro ε e c writeOk renameOk
  refine ⟨rfl, rfl, rfl, ?_⟩
  unfold doAppend doAppendInner
  cases writeOk <;> cases renameOk <;> rfl

/-- C5: over the extracted symbol-name sets, the Analyzer's
`structuralChangePercent` is `round(100 × (deleted + added) / (|before| +
|after|))` and 0 when the denominator is 0; identical snapshots yield all
zeros; ten functions reduced to five with none added yield
`deletedFunctions = 5` and `structuralChangePercent = 33`. -/
theorem C5_structural_change_formula :
    ∀ (fsFiles : String → Option Snapshot) (bp ap : String) (b a : Snapshot),
    (fsFiles bp = some b → fsFiles ap = some a →
      analyzeStructuralChange fsFiles bp ap = analyzeSets b a)
    ∧ (analyzeSets b a).structuralChangePercent =
        (if 0 < b.functions.card + a.functions.card then
          jsRound (100 * ((b.functions \ a.functions).card
            + (a.functions \ b.functions).card))
            (b.functions.card + a.functions.card)
        else 0)
    ∧ analyzeSets b b = ⟨none, 0, 0, 0⟩
    ∧ (a.functions ⊆ b.functions → b.functions.card = 10 →
        a.functions.card = 5 →
        (analyzeSets b a).deletedFunctions = 5
        ∧ (analyzeSets b a).structuralChangePercent = 33) := by
  intro fsFiles bp ap b a
  refine ⟨?_, ?_, ?_, ?_⟩
  · intro hb ha
    unfold analyzeStructuralChange
    rw [hb, ha]
  · unfold analyzeSets
    simp only []
    rw [Nat.add_comm ((a.functions \ b.functions).card)]
  · unfold analyzeSets
    simp only [Finset.sdiff_self, Finset.card_empty]
    split_ifs with h
    · have hz : jsRound (100 * (0 + 0)) (b.functions.card + b.functions.card)
          = 0 := by
        unfold jsRound
        apply Nat.div_eq_of_lt
        omega
      rw [hz]
    · rfl
  · intro hsub hb10 ha5
    have hdel : (b.functions \ a.functions).card = 5 := by
      rw [Finset.card_sdiff hsub, hb10, ha5]
    have hadd : (a.functions \ b.functions).card = 0 := by
      rw [Finset.sdiff_eq_empty_iff_subset.mpr hsub, Finset.card_empty]
    unfold analyzeSets
    simp only [hdel, hadd, hb10, ha5]
    refine ⟨trivial, ?_⟩
    norm_num [jsRound]

theorem C5_structural_change_witness :
    analyzeStructuralChange demoFs "before.ts" "after.ts"
      = analyzeSets demoBeforeSnap demoAfterSnap
    ∧ (analyzeSets demoBeforeSnap demoAfterSnap).deletedFunctions = 5
    ∧ (analyzeSets demoBeforeSnap demoAfterSnap).structuralChangePercent = 33 :=
  have h := C5_structural_change_formula demoFs "before.ts" "after.ts"
    demoBeforeSnap demoAfterSnap
  have hs := h.2.2.2 (by decide) (by decide) (by decide)
  ⟨h.1 (by decide) (by decide), hs.1, hs.2⟩

/-- C6: whenever either snapshot path does not exist, the Analyzer returns
an error of exactly `File not found: <missing path>` with all numeric
fields zero (the embedded model is a total function — it never throws). -/
theorem C6_missing_path_error :
    ∀ (fsFiles : String → Option Snapshot) (bp ap : String),
    fsFiles bp = none ∨ fsFiles ap = none →
    ∃ missingPath, fsFiles missingPath = none
      ∧ analyzeStructuralChange fsFiles bp ap
          = ⟨some ("File not found: " ++ missingPath), 0, 0, 0⟩ := by
  intro fsFiles bp ap h
  unfold analyzeStructuralChange
  cases hbp : fsFiles bp with
  | none => exact ⟨bp, hbp, rfl⟩
  | some b =>
    cases hap : fsFiles ap with
    | none => exact ⟨ap, hap, rfl⟩
    | some a =>
      rw [hbp, hap] at h
      rcases h with h | h <;> exact absurd h (by simp)

theorem C6_missing_path_witness :
    ∃ missingPath, (fun _ : String => (none : Option Snapshot)) missingPath = none
      ∧ analyzeStructuralChange (fun _ => none) "missing-before.ts" "after.ts"
          = ⟨some ("File not found: " ++ missingPath), 0, 0, 0⟩ :=
  C6_missing_path_error (fun _ => none) "missing-before.ts" "after.ts"
    (Or.inl rfl)

/-- C7: within one process lifetime, however many level-triggered scans
observe the log, any event value is enqueued for enrichment at most once —
the dedup set blocks every later observation of the same event. -/
theorem C7_enqueue_at_most_once :
    ∀ (sid : String) (logs : List (LogContent WatchedEvent))
      (e : WatchedEvent),
    (runScans sid logs).queue.count e ≤ 1 := by
  intro sid logs e
  have h := (runScans_inv sid logs).1
  exact List.nodup_iff_count_le_one.mp (h.of_map _) e

/-- C8: draining a burst of K enqueued jobs fires all K, in FIFO order,
none dropped, and consecutive firing times are at least
`GEMINI_MIN_INTERVAL_MS` apart, whatever the clock start, the last-call
mark, and the execution delays between jobs. -/
theorem C8_drain_fifo_spacing :
    ∀ (α : Type) (jobs : List α) (delays : List Nat) (last now : Nat),
    (drainTimes last now jobs delays).map Prod.fst = jobs
    ∧ List.Chain' (fun a b => a.2 + GEMINI_MIN_INTERVAL_MS ≤ b.2)
        (drainTimes last now jobs delays) := by
  intro α jobs delays last now
  constructor
  · induction jobs generalizing last now delays with
    | nil => rfl
    | cons j js ih => simp [drainTimes, ih]
  · exact drainTimes_chain' jobs last now delays

/-- C9 counterexample: a response payload that is a JSON object containing
an `explanation` string — here the empty string — does not succeed:
`callGemini` treats it as failure because of the `!parsed.explanation.trim()`
guard, refuting the claim that any `explanation` string succeeds. -/
theorem C9_empty_explanation_counterexample :
    callGemini true (GeminiHttp.okText (GeminiPayload.explanationString ""))
      = none := by
  decide

/-- C9 (amended): a response payload containing an `explanation` string
that does not trim to empty succeeds with exactly that explanation; an
explanation that trims to empty, and every other shape or failure —
missing key, network error, non-ok status, missing candidate text,
unparsable text, missing or non-string `explanation` — yields `null`; a
`null` result appends no enrichment event, while success appends exactly
one event carrying the explanation and the originating event's timestamp. -/
theorem C9_response_shape_amended :
    ∀ (resp : GeminiHttp) (s riskTs file : String),
    callGemini false resp = none
    ∧ callGemini true GeminiHttp.fetchError = none
    ∧ callGemini true GeminiHttp.notOk = none
    ∧ callGemini true GeminiHttp.okNoText = none
    ∧ callGemini true (GeminiHttp.okText GeminiPayload.notJson) = none
    ∧ callGemini true (GeminiHttp.okText GeminiPayload.noExplanationField)
        = none
    ∧ callGemini true (GeminiHttp.okText GeminiPayload.explanationNonString)
        = none
    ∧ (trimsToEmpty s = true →
        callGemini true (GeminiHttp.okText (GeminiPayload.explanationString s))
          = none)
    ∧ (trimsToEmpty s = false →
        callGemini true (GeminiHttp.okText (GeminiPayload.explanationString s))
          = some ⟨s⟩)
    ∧ processRiskEvent riskTs file none = []
    ∧ processRiskEvent riskTs file (some ⟨s⟩) = [⟨file, riskTs, s⟩] := by
  intro resp s riskTs file
  refine ⟨rfl, rfl, rfl, rfl, rfl, rfl, rfl, ?_, ?_, rfl, rfl⟩
  · intro h
    unfold callGemini
    simp [h]
  · intro h
    unfold callGemini
    simp [h]

theorem C9_response_shape_witness :
    trimsToEmpty "Deletes the token check." = false
    ∧ callGemini true (GeminiHttp.okText
        (GeminiPayload.explanationString "Deletes the token check."))
        = some ⟨"Deletes the token check."⟩
    ∧ processRiskEvent "2024-01-01T00:00:00Z" "src/auth/index.ts"
        (some ⟨"Deletes the token check."⟩)
        = [⟨"src/auth/index.ts", "2024-01-01T00:00:00Z",
            "Deletes the token check."⟩] :=
  have h := C9_response_shape_amended GeminiHttp.notOk
    "Deletes the token check." "2024-01-01T00:00:00Z" "src/auth/index.ts"
  ⟨by decide, h.2.2.2.2.2.2.2.2.1 (by decide), h.2.2.2.2.2.2.2.2.2.2⟩

/-- C10: the dedup set is keyed on the timestamp string alone, so across a
process lifetime at most one job per timestamp value is ever enqueued; in
particular two distinct qualifying events carrying byte-identical
timestamps produce one enrichment job — the second event is silently never
enriched. -/
theorem C10_dedup_keyed_on_timestamp :
    ∀ (sid : String) (logs : List (LogContent WatchedEvent)) (t : String),
    ((runScans sid logs).queue.map WatchedEvent.timestamp).count t ≤ 1
    ∧ sameTsEventA ≠ sameTsEventB
    ∧ qualifiesForLlm sameTsEventB = true
    ∧ (runScans "s1"
        [LogContent.wellFormed [sameTsEventA, sameTsEventB]]).queue
        = [sameTsEventA] := by
  intro sid logs t
  refine ⟨?_, by decide, by decide, by decide⟩
  exact List.nodup_iff_count_le_one.mp (runScans_inv sid logs).1 t

end ClineShield
